import Mathlib

/-!
SRAM-PUF firmware: a shallow embedding of `main.c`.

The firmware reads the 16 bytes of the `.noinit` array `puf_data` and reports
each of them over UART2 as one text record.  This file embeds `main.c` as Lean
functions over an explicit machine state and proves properties of the report
and of the start-up sequence.

Conventions of the embedding.

* The program state that `main.c` can touch is the record `World`; every C
  function becomes a function `World → Res α`.
* A C function that enters a `while (1)` loop never gives control back: its
  result is `Res.spin`, which carries the loop that was entered and the state
  at that point, and discards the rest of the caller.
* An access outside an array is `Res.undef`.
* Calls into the vendor library (HAL) are answered by the environment `Env`
  and appended to `World.trace`, so that the trace is the observable behaviour
  of a run.  Entry to and return from the functions of `main.c` are recorded in
  the same trace.
* `int i` of the reporting loop only takes the values `0..16`, and is a `Nat`.
-/

namespace SramPuf

/-! ## Types of the vendor library -/

/-- Modelled from the spec: the status returned by the calls into the vendor
library, whose header is not part of the sources.  The spec distinguishes
success from failure and timeout; `HAL_OK` is the only success value. -/
inductive HAL_StatusTypeDef
  | HAL_OK
  | HAL_ERROR
  | HAL_BUSY
  | HAL_TIMEOUT
  deriving DecidableEq, Repr

/-- Names of the macros and peripheral addresses of the vendor headers that the
bring-up code mentions.  Their numeric values live in headers outside the
sources and are left uninterpreted; `zero` is the value of a field cleared by
the initialiser `{0}`. -/
inductive Sym
  | zero
  | RCC_OSCILLATORTYPE_HSI | RCC_HSI_ON | RCC_HSICALIBRATION_DEFAULT
  | RCC_PLL_ON | RCC_PLLSOURCE_HSI_DIV2 | RCC_PLL_MUL16
  | RCC_CLOCKTYPE_HCLK | RCC_CLOCKTYPE_SYSCLK | RCC_CLOCKTYPE_PCLK1 | RCC_CLOCKTYPE_PCLK2
  | RCC_SYSCLKSOURCE_PLLCLK | RCC_SYSCLK_DIV1 | RCC_HCLK_DIV2 | RCC_HCLK_DIV1
  | FLASH_LATENCY_2
  | USART2 | UART_WORDLENGTH_8B | UART_STOPBITS_1 | UART_PARITY_NONE
  | UART_MODE_TX_RX | UART_HWCONTROL_NONE | UART_OVERSAMPLING_16
  | GPIOA | GPIOB | GPIOC | GPIOD
  | LD2_GPIO_Port | LD2_Pin | B1_GPIO_Port | B1_Pin
  | GPIO_PIN_RESET | GPIO_MODE_OUTPUT_PP | GPIO_MODE_IT_RISING
  | GPIO_NOPULL | GPIO_SPEED_FREQ_LOW
  | EXTI15_10_IRQn
  deriving DecidableEq, Repr

/-- The fields of `RCC_OscInitStruct.PLL` that `SystemClock_Config` assigns. -/
structure RCC_PLLInitTypeDef where
  PLLState : Sym
  PLLSource : Sym
  PLLMUL : Sym
  deriving DecidableEq, Repr

/-- The fields of `RCC_OscInitStruct` that `SystemClock_Config` assigns. -/
structure RCC_OscInitTypeDef where
  OscillatorType : Sym
  HSIState : Sym
  HSICalibrationValue : Sym
  PLL : RCC_PLLInitTypeDef
  deriving DecidableEq, Repr

/-- The fields of `RCC_ClkInitStruct` that `SystemClock_Config` assigns; the
bitwise or of clock-type flags is kept as the list of its operands. -/
structure RCC_ClkInitTypeDef where
  ClockType : List Sym
  SYSCLKSource : Sym
  AHBCLKDivider : Sym
  APB1CLKDivider : Sym
  APB2CLKDivider : Sym
  deriving DecidableEq, Repr

/-- The fields of `GPIO_InitStruct` that `MX_GPIO_Init` assigns. -/
structure GPIO_InitTypeDef where
  Pin : Sym
  Mode : Sym
  Pull : Sym
  Speed : Sym
  deriving DecidableEq, Repr

/-- The fields of `huart2.Init` that `MX_USART2_UART_Init` assigns. -/
structure UART_InitTypeDef where
  BaudRate : Nat
  WordLength : Sym
  StopBits : Sym
  Parity : Sym
  Mode : Sym
  HwFlowCtl : Sym
  OverSampling : Sym
  deriving DecidableEq, Repr

/-- The part of the UART handle that `main.c` writes.  The fields that the
vendor library keeps for itself belong to the output channel. -/
structure UART_HandleTypeDef where
  Instance : Sym
  Init : UART_InitTypeDef
  deriving DecidableEq, Repr

/-! ## Observable behaviour -/

/-- The functions defined in `main.c`. -/
inductive Fn
  | main
  | read_sram_and_generate_key
  | SystemClock_Config
  | MX_USART2_UART_Init
  | MX_GPIO_Init
  | Error_Handler
  deriving DecidableEq, Repr

/-- One entry of the trace of a run: entry to or return from a function of
`main.c`, or a completed call into the vendor library with its arguments and,
where it has one, the status it returned. -/
inductive Event
  | call (f : Fn)
  | ret (f : Fn)
  | HAL_Init (status : HAL_StatusTypeDef)
  | HAL_RCC_OscConfig (cfg : RCC_OscInitTypeDef) (status : HAL_StatusTypeDef)
  | HAL_RCC_ClockConfig (cfg : RCC_ClkInitTypeDef) (latency : Sym) (status : HAL_StatusTypeDef)
  | HAL_RCC_GPIO_CLK_ENABLE (port : Sym)
  | HAL_GPIO_WritePin (port : Sym) (pin : Sym) (state : Sym)
  | HAL_GPIO_Init (port : Sym) (cfg : GPIO_InitTypeDef)
  | HAL_NVIC_SetPriority (irq : Sym) (preempt : Nat) (sub : Nat)
  | HAL_NVIC_EnableIRQ (irq : Sym)
  | HAL_UART_Init (handle : UART_HandleTypeDef) (status : HAL_StatusTypeDef)
  | HAL_UART_Transmit (data : List Char) (size : Nat) (timeout : Nat) (status : HAL_StatusTypeDef)
  | disable_irq
  deriving DecidableEq, Repr

/-- The environment of a run: what the vendor library answers, the value of
the macro `HAL_MAX_DELAY` (defined in a header outside the sources), and the
bytes found in the stack slot of `buffer` when the reporter is entered.  The
status of a transmission may depend on everything that happened before it and
on the arguments of the call. -/
structure Env where
  HAL_Init : HAL_StatusTypeDef
  HAL_RCC_OscConfig : HAL_StatusTypeDef
  HAL_RCC_ClockConfig : HAL_StatusTypeDef
  HAL_UART_Init : HAL_StatusTypeDef
  HAL_UART_Transmit : List Event → List Char → Nat → Nat → HAL_StatusTypeDef
  HAL_MAX_DELAY : Nat
  stack : Fin 64 → Char

/-- The program state: the `.noinit` array `puf_data`, the global `huart2`,
the interrupt mask set by `__disable_irq`, and the trace so far. -/
structure World where
  puf_data : Fin 16 → Fin 256
  huart2 : UART_HandleTypeDef
  irq_disabled : Bool
  trace : List Event

/-- The two `while (1)` loops of `main.c`. -/
inductive Halt
  | Error_Handler
  | main_loop
  deriving DecidableEq, Repr

/-- Outcome of running a piece of the program: it returns `a` in state `w`, it
entered the loop `loc` in state `w` and stays there, or it made an
out-of-bounds access. -/
inductive Res (α : Type)
  | ret (a : α) (w : World)
  | spin (loc : Halt) (w : World)
  | undef

/-- A piece of the program, as a function of the state it starts in. -/
def M (α : Type) : Type := World → Res α

/-- Return without touching the state. -/
def M.pure {α : Type} (a : α) : M α :=
  fun w => Res.ret a w

/-- Sequencing: the continuation runs only if the first part returns. -/
def M.bind {α β : Type} (m : M α) (f : α → M β) : M β :=
  fun w =>
    match m w with
    | Res.ret a w1 => f a w1
    | Res.spin loc w1 => Res.spin loc w1
    | Res.undef => Res.undef

instance : Monad M where
  pure := M.pure
  bind := M.bind

/-- Append one event to the trace. -/
def emit (e : Event) : M Unit :=
  fun w => Res.ret () { w with trace := w.trace ++ [e] }

/-- Enter a `while (1)` loop with an empty body. -/
def spin {α : Type} (loc : Halt) : M α :=
  fun w => Res.spin loc w

/-! ## The C library functions used by the reporter -/

/-- The terminating character of a C string. -/
def NUL : Char := Char.ofNat 0

/-- Left-pad a digit string with `0` up to the given field width. -/
def zeroPad (width : Nat) (digits : List Char) : List Char :=
  List.replicate (width - digits.length) '0' ++ digits

/-- The conversion `%02d` of `printf`: signed decimal, zero-padded to a
minimum field width of 2 (the sign counts towards the width). -/
def fmt_02d (i : Int) : List Char :=
  if i < 0 then '-' :: zeroPad 1 (Nat.toDigits 10 i.natAbs)
  else zeroPad 2 (Nat.toDigits 10 i.toNat)

/-- The conversion `%02X` of `printf`: unsigned hexadecimal with the digits
`A`..`F` in upper case, zero-padded to a minimum field width of 2. -/
def fmt_02X (v : Nat) : List Char :=
  zeroPad 2 ((Nat.toDigits 16 v).map Char.toUpper)

/-- The text produced by the format `"PUF[%02d]: %02X\r\n"` for the arguments
`i` and `v`. -/
def format_record (i : Int) (v : Nat) : List Char :=
  "PUF[".toList ++ fmt_02d i ++ "]: ".toList ++ fmt_02X v ++ "\r\n".toList

/-- The effect of `sprintf(buffer, ...)` on the buffer: the text and its
terminator overwrite the start of the buffer, the rest is kept.  `none` when
the text with its terminator does not fit. -/
def sprintf (buffer : List Char) (text : List Char) : Option (List Char) :=
  if text.length + 1 ≤ buffer.length then
    some (text ++ NUL :: buffer.drop (text.length + 1))
  else none

/-- The function `strlen`: the number of characters before the first `NUL`;
`none` when the buffer holds no `NUL`. -/
def strlen : List Char → Option Nat
  | [] => none
  | c :: cs => if c = NUL then some 0 else (strlen cs).map (· + 1)

/-! ## Calls into the vendor library -/

/-- The call `HAL_Init()`. -/
def HAL_Init (env : Env) : M HAL_StatusTypeDef :=
  fun w => Res.ret env.HAL_Init { w with trace := w.trace ++ [Event.HAL_Init env.HAL_Init] }

/-- The call `HAL_RCC_OscConfig(&cfg)`. -/
def HAL_RCC_OscConfig (env : Env) (cfg : RCC_OscInitTypeDef) : M HAL_StatusTypeDef :=
  fun w => Res.ret env.HAL_RCC_OscConfig
    { w with trace := w.trace ++ [Event.HAL_RCC_OscConfig cfg env.HAL_RCC_OscConfig] }

/-- The call `HAL_RCC_ClockConfig(&cfg, latency)`. -/
def HAL_RCC_ClockConfig (env : Env) (cfg : RCC_ClkInitTypeDef) (latency : Sym) :
    M HAL_StatusTypeDef :=
  fun w => Res.ret env.HAL_RCC_ClockConfig
    { w with trace := w.trace ++ [Event.HAL_RCC_ClockConfig cfg latency env.HAL_RCC_ClockConfig] }

/-- The call `HAL_UART_Init(&huart2)`. -/
def HAL_UART_Init (env : Env) : M HAL_StatusTypeDef :=
  fun w => Res.ret env.HAL_UART_Init
    { w with trace := w.trace ++ [Event.HAL_UART_Init w.huart2 env.HAL_UART_Init] }

/-- The call `HAL_UART_Transmit(&huart2, pData, Size, Timeout)`: the library is
handed the first `Size` bytes at `pData`, and its status is recorded with
them.  Reading past the end of the array behind `pData` is undefined. -/
def HAL_UART_Transmit (env : Env) (pData : List Char) (Size : Nat) (Timeout : Nat) :
    M HAL_StatusTypeDef :=
  fun w =>
    if Size ≤ pData.length then
      let status := env.HAL_UART_Transmit w.trace (pData.take Size) Size Timeout
      Res.ret status
        { w with trace := w.trace ++ [Event.HAL_UART_Transmit (pData.take Size) Size Timeout status] }
    else Res.undef

/-! ## The functions of `main.c` -/

/-- The function `Error_Handler`: interrupts are disabled and the function
loops forever. -/
def Error_Handler : M Unit := do
  emit (Event.call Fn.Error_Handler)
  (fun w => Res.ret () { w with irq_disabled := true, trace := w.trace ++ [Event.disable_irq] })
  spin Halt.Error_Handler

/-- The read `puf_data[i]`. -/
def read_puf_data (i : Nat) : M (Fin 256) :=
  fun w => if h : i < 16 then Res.ret (w.puf_data ⟨i, h⟩) w else Res.undef

/-- The body of the reporting loop for index `i`: format the record into
`buffer` and hand it to the UART.  The status of the transmission is
discarded.  The result is the buffer after the iteration. -/
def loop_body (env : Env) (buffer : List Char) (i : Nat) : M (List Char) := do
  let v ← read_puf_data i
  match sprintf buffer (format_record (i : Int) v.val) with
  | none => fun _ => Res.undef
  | some buffer1 =>
    match strlen buffer1 with
    | none => fun _ => Res.undef
    | some n =>
      let _ ← HAL_UART_Transmit env buffer1 (n % 65536) env.HAL_MAX_DELAY
      pure buffer1

/-- The loop `for (int i = ...; i < 16; i++)` of the reporter, from the
current value of `i`. -/
def for_loop (env : Env) (buffer : List Char) (i : Nat) : M Unit :=
  fun w =>
    if _h : i < 16 then
      match loop_body env buffer i w with
      | Res.ret buffer1 w1 => for_loop env buffer1 (i + 1) w1
      | Res.spin loc w1 => Res.spin loc w1
      | Res.undef => Res.undef
    else Res.ret () w
termination_by 16 - i
decreasing_by omega

/-- The function `read_sram_and_generate_key`. -/
def read_sram_and_generate_key (env : Env) : M Unit := do
  emit (Event.call Fn.read_sram_and_generate_key)
  for_loop env (List.ofFn env.stack) 0
  emit (Event.ret Fn.read_sram_and_generate_key)

/-- The function `SystemClock_Config`. -/
def SystemClock_Config (env : Env) : M Unit := do
  emit (Event.call Fn.SystemClock_Config)
  let RCC_OscInitStruct : RCC_OscInitTypeDef :=
    { OscillatorType := Sym.RCC_OSCILLATORTYPE_HSI
      HSIState := Sym.RCC_HSI_ON
      HSICalibrationValue := Sym.RCC_HSICALIBRATION_DEFAULT
      PLL :=
        { PLLState := Sym.RCC_PLL_ON
          PLLSource := Sym.RCC_PLLSOURCE_HSI_DIV2
          PLLMUL := Sym.RCC_PLL_MUL16 } }
  let s1 ← HAL_RCC_OscConfig env RCC_OscInitStruct
  if s1 ≠ HAL_StatusTypeDef.HAL_OK then Error_Handler
  let RCC_ClkInitStruct : RCC_ClkInitTypeDef :=
    { ClockType := [Sym.RCC_CLOCKTYPE_HCLK, Sym.RCC_CLOCKTYPE_SYSCLK,
                    Sym.RCC_CLOCKTYPE_PCLK1, Sym.RCC_CLOCKTYPE_PCLK2]
      SYSCLKSource := Sym.RCC_SYSCLKSOURCE_PLLCLK
      AHBCLKDivider := Sym.RCC_SYSCLK_DIV1
      APB1CLKDivider := Sym.RCC_HCLK_DIV2
      APB2CLKDivider := Sym.RCC_HCLK_DIV1 }
  let s2 ← HAL_RCC_ClockConfig env RCC_ClkInitStruct Sym.FLASH_LATENCY_2
  if s2 ≠ HAL_StatusTypeDef.HAL_OK then Error_Handler
  emit (Event.ret Fn.SystemClock_Config)

/-- The function `MX_USART2_UART_Init`. -/
def MX_USART2_UART_Init (env : Env) : M Unit := do
  emit (Event.call Fn.MX_USART2_UART_Init)
  (fun w => Res.ret ()
    { w with huart2 :=
      { Instance := Sym.USART2
        Init :=
          { BaudRate := 9600
            WordLength := Sym.UART_WORDLENGTH_8B
            StopBits := Sym.UART_STOPBITS_1
            Parity := Sym.UART_PARITY_NONE
            Mode := Sym.UART_MODE_TX_RX
            HwFlowCtl := Sym.UART_HWCONTROL_NONE
            OverSampling := Sym.UART_OVERSAMPLING_16 } } })
  let s ← HAL_UART_Init env
  if s ≠ HAL_StatusTypeDef.HAL_OK then Error_Handler
  emit (Event.ret Fn.MX_USART2_UART_Init)

/-- The function `MX_GPIO_Init`. -/
def MX_GPIO_Init : M Unit := do
  emit (Event.call Fn.MX_GPIO_Init)
  emit (Event.HAL_RCC_GPIO_CLK_ENABLE Sym.GPIOC)
  emit (Event.HAL_RCC_GPIO_CLK_ENABLE Sym.GPIOD)
  emit (Event.HAL_RCC_GPIO_CLK_ENABLE Sym.GPIOA)
  emit (Event.HAL_RCC_GPIO_CLK_ENABLE Sym.GPIOB)
  emit (Event.HAL_GPIO_WritePin Sym.LD2_GPIO_Port Sym.LD2_Pin Sym.GPIO_PIN_RESET)
  let GPIO_InitStruct : GPIO_InitTypeDef :=
    { Pin := Sym.LD2_Pin
      Mode := Sym.GPIO_MODE_OUTPUT_PP
      Pull := Sym.GPIO_NOPULL
      Speed := Sym.GPIO_SPEED_FREQ_LOW }
  emit (Event.HAL_GPIO_Init Sym.LD2_GPIO_Port GPIO_InitStruct)
  let GPIO_InitStruct : GPIO_InitTypeDef :=
    { GPIO_InitStruct with
      Pin := Sym.B1_Pin
      Mode := Sym.GPIO_MODE_IT_RISING
      Pull := Sym.GPIO_NOPULL }
  emit (Event.HAL_GPIO_Init Sym.B1_GPIO_Port GPIO_InitStruct)
  emit (Event.HAL_NVIC_SetPriority Sym.EXTI15_10_IRQn 0 0)
  emit (Event.HAL_NVIC_EnableIRQ Sym.EXTI15_10_IRQn)
  emit (Event.ret Fn.MX_GPIO_Init)

/-- The function `main`. -/
def main (env : Env) : M Unit := do
  emit (Event.call Fn.main)
  let _ ← HAL_Init env
  SystemClock_Config env
  MX_GPIO_Init
  MX_USART2_UART_Init env
  read_sram_and_generate_key env
  spin Halt.main_loop


/-! ## Vocabulary for the properties -/

/-- The byte of the reservoir at position `i`, as a number (0 past the end). -/
def byteAt (puf : Fin 16 → Fin 256) (i : Nat) : Nat :=
  if h : i < 16 then (puf ⟨i, h⟩).val else 0

/-- The two-digit decimal rendering of an index below 100. -/
def dec2 (i : Nat) : List Char :=
  [Char.ofNat (48 + i / 10), Char.ofNat (48 + i % 10)]

/-- The upper-case hexadecimal digit of a value below 16. -/
def hexChar (d : Nat) : Char :=
  "0123456789ABCDEF".toList.getD d '?'

/-- The two-digit upper-case hexadecimal rendering of a byte. -/
def hex2 (v : Nat) : List Char :=
  [hexChar (v / 16), hexChar (v % 16)]

/-- The value of an upper-case hexadecimal digit: `0`..`9` and `A`..`F` have
a value, no other character has one. -/
def hexDigitValue (c : Char) : Option Nat :=
  if 48 ≤ c.toNat ∧ c.toNat ≤ 57 then some (c.toNat - 48)
  else if 65 ≤ c.toNat ∧ c.toNat ≤ 70 then some (c.toNat - 55)
  else none

/-- The record that the reporter builds for position `i` of the reservoir. -/
def record (puf : Fin 16 → Fin 256) (i : Nat) : List Char :=
  format_record (i : Int) (byteAt puf i)

/-- The transmissions made by `n` iterations of the reporting loop that start
at index `i` after the trace `hist`, in closed form: each record is handed over
with length 13 and the delay `HAL_MAX_DELAY`, and the status is the one the
environment gives after everything that came before.  `for_loop_eq` shows that
this is what the loop does. -/
def sends (env : Env) (puf : Fin 16 → Fin 256) : Nat → Nat → List Event → List Event
  | 0, _, _ => []
  | n + 1, i, hist =>
    let e := Event.HAL_UART_Transmit (record puf i) 13 env.HAL_MAX_DELAY
      (env.HAL_UART_Transmit hist (record puf i) 13 env.HAL_MAX_DELAY)
    e :: sends env puf n (i + 1) (hist ++ [e])

/-- The trace reached by an outcome (empty for an out-of-bounds access). -/
def Res.trace {α : Type} : Res α → List Event
  | Res.ret _ w => w.trace
  | Res.spin _ w => w.trace
  | Res.undef => []

/-- The loop an outcome stays in, if it entered one. -/
def Res.halted {α : Type} : Res α → Option Halt
  | Res.ret _ _ => none
  | Res.spin loc _ => some loc
  | Res.undef => none

/-- One call of `HAL_UART_Transmit`: the bytes handed over, the length and
timeout arguments, and the status returned. -/
structure SendCall where
  data : List Char
  size : Nat
  timeout : Nat
  status : HAL_StatusTypeDef
  deriving DecidableEq, Repr

/-- The transmission recorded by an event, if it is one. -/
def Event.send : Event → Option SendCall
  | Event.HAL_UART_Transmit data size timeout status => some ⟨data, size, timeout, status⟩
  | _ => none

/-- The calls of `HAL_UART_Transmit` in a trace, in order. -/
def send_calls (tr : List Event) : List SendCall :=
  tr.filterMap Event.send

/-- The bytes that the output channel accepted: the data of the transmissions
that returned `HAL_OK`, in order. -/
def wire (tr : List Event) : List Char :=
  (((send_calls tr).filter (fun c => c.status = HAL_StatusTypeDef.HAL_OK)).map SendCall.data).flatten

/-- The output channel accepts every send. -/
def accepts_all (env : Env) : Prop :=
  ∀ hist data size timeout,
    env.HAL_UART_Transmit hist data size timeout = HAL_StatusTypeDef.HAL_OK

/-- Every bring-up configuration call returns `HAL_OK`. -/
def bring_up_ok (env : Env) : Prop :=
  env.HAL_RCC_OscConfig = HAL_StatusTypeDef.HAL_OK ∧
  env.HAL_RCC_ClockConfig = HAL_StatusTypeDef.HAL_OK ∧
  env.HAL_UART_Init = HAL_StatusTypeDef.HAL_OK

/-- The events that one call of `read_sram_and_generate_key` appends to the
trace. -/
def report (env : Env) (w : World) : List Event :=
  (read_sram_and_generate_key env w).trace.drop w.trace.length

/-- The lines handed to the output channel by one call of the reporter started
in state `w`, whatever became of them. -/
def lines (env : Env) (w : World) : List (List Char) :=
  (send_calls (report env w)).map SendCall.data

/-- The state at reset: `puf_data` holds what the SRAM cells settled to,
`huart2` is zero-initialised, interrupts are enabled, nothing has happened. -/
def boot (puf : Fin 16 → Fin 256) : World :=
  { puf_data := puf
    huart2 :=
      { Instance := Sym.zero
        Init :=
          { BaudRate := 0
            WordLength := Sym.zero
            StopBits := Sym.zero
            Parity := Sym.zero
            Mode := Sym.zero
            HwFlowCtl := Sym.zero
            OverSampling := Sym.zero } }
    irq_disabled := false
    trace := [] }

/-! ## Concrete inputs -/

/-- An environment in which every call into the vendor library succeeds. -/
def env_ok : Env where
  HAL_Init := HAL_StatusTypeDef.HAL_OK
  HAL_RCC_OscConfig := HAL_StatusTypeDef.HAL_OK
  HAL_RCC_ClockConfig := HAL_StatusTypeDef.HAL_OK
  HAL_UART_Init := HAL_StatusTypeDef.HAL_OK
  HAL_UART_Transmit := fun _ _ _ _ => HAL_StatusTypeDef.HAL_OK
  HAL_MAX_DELAY := 0xFFFFFFFF
  stack := fun _ => NUL

/-- An environment in which bring-up succeeds and the fourth transmission of
the run (the one of record 3) times out, all others succeeding. -/
def env_timeout3 : Env where
  HAL_Init := HAL_StatusTypeDef.HAL_OK
  HAL_RCC_OscConfig := HAL_StatusTypeDef.HAL_OK
  HAL_RCC_ClockConfig := HAL_StatusTypeDef.HAL_OK
  HAL_UART_Init := HAL_StatusTypeDef.HAL_OK
  HAL_UART_Transmit := fun hist _ _ _ =>
    if (send_calls hist).length = 3 then HAL_StatusTypeDef.HAL_TIMEOUT
    else HAL_StatusTypeDef.HAL_OK
  HAL_MAX_DELAY := 0xFFFFFFFF
  stack := fun _ => NUL

/-- An environment in which the UART cannot be initialised. -/
def env_uart_down : Env where
  HAL_Init := HAL_StatusTypeDef.HAL_OK
  HAL_RCC_OscConfig := HAL_StatusTypeDef.HAL_OK
  HAL_RCC_ClockConfig := HAL_StatusTypeDef.HAL_OK
  HAL_UART_Init := HAL_StatusTypeDef.HAL_ERROR
  HAL_UART_Transmit := fun _ _ _ _ => HAL_StatusTypeDef.HAL_OK
  HAL_MAX_DELAY := 0xFFFFFFFF
  stack := fun _ => NUL

/-- A reservoir that begins like the one of the scenario in the specification:
`0x3F, 0x00, 0xFF, 0xA0`, then `0x01` up to `0x0C`. -/
def puf_scenario : Fin 16 → Fin 256 :=
  fun i => Fin.ofNat ([0x3F, 0x00, 0xFF, 0xA0, 0x01, 0x02, 0x03, 0x04,
                       0x05, 0x06, 0x07, 0x08, 0x09, 0x0A, 0x0B, 0x0C].getD i.val 0)

/-! ## Lemmas on formatting and on the reporting loop -/

set_option maxRecDepth 100000 in
theorem fmt_02d_eq : ∀ i : Fin 16, fmt_02d (i.val : Int) = dec2 i.val := by decide

set_option maxRecDepth 100000 in
theorem fmt_02X_eq : ∀ v : Fin 256, fmt_02X v.val = hex2 v.val := by decide

set_option maxRecDepth 100000 in
theorem hex2_no_NUL : ∀ v : Fin 256, NUL ∉ hex2 v.val := by decide

set_option maxRecDepth 100000 in
theorem dec2_no_NUL : ∀ i : Fin 16, NUL ∉ dec2 i.val := by decide

theorem format_record_eq (i : Fin 16) (v : Fin 256) :
    format_record (i.val : Int) v.val
      = "PUF[".toList ++ dec2 i.val ++ "]: ".toList ++ hex2 v.val ++ "\r\n".toList := by
  unfold format_record
  rw [fmt_02d_eq, fmt_02X_eq]

theorem format_record_length (i : Fin 16) (v : Fin 256) :
    (format_record (i.val : Int) v.val).length = 13 := by
  rw [format_record_eq]; rfl

theorem format_record_no_NUL (i : Fin 16) (v : Fin 256) :
    NUL ∉ format_record (i.val : Int) v.val := by
  rw [format_record_eq]
  have h1 := dec2_no_NUL i
  have h2 := hex2_no_NUL v
  simp only [List.mem_append, not_or]
  refine ⟨⟨⟨⟨by decide, h1⟩, by decide⟩, h2⟩, by decide⟩

theorem strlen_append (xs rest : List Char) (h : NUL ∉ xs) :
    strlen (xs ++ NUL :: rest) = some xs.length := by
  induction xs with
  | nil => simp [strlen]
  | cons c cs ih =>
    have hc : c ≠ NUL := fun e => h (by simp [e])
    have hcs : NUL ∉ cs := fun e => h (by simp [e])
    simp [strlen, hc, ih hcs]


theorem byteAt_lt (puf : Fin 16 → Fin 256) (i : Nat) : byteAt puf i < 256 := by
  unfold byteAt
  split
  · exact (puf _).isLt
  · decide

theorem record_length (puf : Fin 16 → Fin 256) (i : Nat) (hi : i < 16) :
    (format_record (i : Int) (byteAt puf i)).length = 13 :=
  format_record_length ⟨i, hi⟩ ⟨byteAt puf i, byteAt_lt puf i⟩

theorem record_no_NUL (puf : Fin 16 → Fin 256) (i : Nat) (hi : i < 16) :
    NUL ∉ format_record (i : Int) (byteAt puf i) :=
  format_record_no_NUL ⟨i, hi⟩ ⟨byteAt puf i, byteAt_lt puf i⟩

theorem loop_body_eq (env : Env) (buffer : List Char) (i : Nat) (hi : i < 16)
    (hb : buffer.length = 64) (w : World) :
    loop_body env buffer i w
      = Res.ret (format_record (i : Int) (byteAt w.puf_data i) ++ NUL :: buffer.drop 14)
          { w with trace := w.trace ++
              [Event.HAL_UART_Transmit (format_record (i : Int) (byteAt w.puf_data i)) 13
                env.HAL_MAX_DELAY
                (env.HAL_UART_Transmit w.trace
                  (format_record (i : Int) (byteAt w.puf_data i)) 13 env.HAL_MAX_DELAY)] } := by
  have hlen := record_length w.puf_data i hi
  have hnul := record_no_NUL w.puf_data i hi
  have hv : (w.puf_data ⟨i, hi⟩).val = byteAt w.puf_data i := by simp [byteAt, hi]
  have hs : sprintf buffer (format_record (i : Int) (byteAt w.puf_data i))
      = some (format_record (i : Int) (byteAt w.puf_data i) ++ NUL :: buffer.drop 14) := by
    simp only [sprintf, hlen, hb]
    rfl
  have hl : strlen (format_record (i : Int) (byteAt w.puf_data i) ++ NUL :: buffer.drop 14)
      = some 13 := by
    rw [strlen_append _ _ hnul, hlen]
  have ht : (format_record (i : Int) (byteAt w.puf_data i) ++ NUL :: buffer.drop 14).take 13
      = format_record (i : Int) (byteAt w.puf_data i) := by
    rw [← hlen, List.take_left']
    rfl
  have hle : 13 ≤ (format_record (i : Int) (byteAt w.puf_data i) ++ NUL :: buffer.drop 14).length := by
    rw [List.length_append, hlen]
    omega
  simp only [loop_body, bind, M.bind, read_puf_data, hi, dite_true, hv, hs, hl, HAL_UART_Transmit,
    pure, M.pure]
  rw [if_pos hle, ht]

theorem for_loop_eq (env : Env) (n : Nat) : ∀ (i : Nat) (buffer : List Char) (w : World),
    i + n = 16 → buffer.length = 64 →
    for_loop env buffer i w
      = Res.ret () { w with trace := w.trace ++ sends env w.puf_data n i w.trace } := by
  induction n with
  | zero =>
    intro i buffer w hi _
    have : ¬ i < 16 := by omega
    rw [for_loop]
    simp [this, sends]
  | succ n ih =>
    intro i buffer w hi hb
    have hlt : i < 16 := by omega
    rw [for_loop]
    simp only [hlt, dite_true, loop_body_eq env buffer i hlt hb w]
    rw [ih (i + 1) _ _ (by omega) (by
      rw [List.length_append, record_length w.puf_data i hlt, List.length_cons, List.length_drop, hb])]
    simp [sends, record]

/-! ## The reporter in closed form -/

theorem read_sram_and_generate_key_eq (env : Env) (w : World) :
    read_sram_and_generate_key env w
      = Res.ret ()
          { w with trace := w.trace ++
              (Event.call Fn.read_sram_and_generate_key ::
                sends env w.puf_data 16 0 (w.trace ++ [Event.call Fn.read_sram_and_generate_key]))
              ++ [Event.ret Fn.read_sram_and_generate_key] } := by
  simp only [read_sram_and_generate_key, bind, M.bind, emit]
  rw [for_loop_eq env 16 0 _ _ (by rfl) (by simp)]
  simp

theorem report_eq (env : Env) (w : World) :
    report env w
      = (Event.call Fn.read_sram_and_generate_key ::
          sends env w.puf_data 16 0 (w.trace ++ [Event.call Fn.read_sram_and_generate_key]))
        ++ [Event.ret Fn.read_sram_and_generate_key] := by
  simp [report, read_sram_and_generate_key_eq, Res.trace]

theorem send_calls_sends_cons (env : Env) (puf : Fin 16 → Fin 256) (n i : Nat)
    (hist : List Event) :
    ∃ st hist1, send_calls (sends env puf (n + 1) i hist)
      = ⟨record puf i, 13, env.HAL_MAX_DELAY, st⟩ :: send_calls (sends env puf n (i + 1) hist1)
      ∧ (accepts_all env → st = HAL_StatusTypeDef.HAL_OK) :=
  ⟨env.HAL_UART_Transmit hist (record puf i) 13 env.HAL_MAX_DELAY,
    hist ++ [Event.HAL_UART_Transmit (record puf i) 13 env.HAL_MAX_DELAY
      (env.HAL_UART_Transmit hist (record puf i) 13 env.HAL_MAX_DELAY)],
    rfl, fun h => h _ _ _ _⟩

theorem send_calls_sends_length (env : Env) (puf : Fin 16 → Fin 256) (n : Nat) :
    ∀ (i : Nat) (hist : List Event), (send_calls (sends env puf n i hist)).length = n := by
  induction n with
  | zero => intro i hist; rfl
  | succ n ih =>
    intro i hist
    obtain ⟨st, hist1, h, _⟩ := send_calls_sends_cons env puf n i hist
    rw [h, List.length_cons, ih]

theorem send_calls_sends_get (env : Env) (puf : Fin 16 → Fin 256) (n : Nat) :
    ∀ (i : Nat) (hist : List Event) (k : Nat), k < n →
      ∃ st, (send_calls (sends env puf n i hist))[k]?
          = some ⟨record puf (i + k), 13, env.HAL_MAX_DELAY, st⟩
        ∧ (accepts_all env → st = HAL_StatusTypeDef.HAL_OK) := by
  induction n with
  | zero => intro i hist k hk; omega
  | succ n ih =>
    intro i hist k hk
    obtain ⟨st, hist1, h, hst⟩ := send_calls_sends_cons env puf n i hist
    rw [h]
    cases k with
    | zero => exact ⟨st, by simp, hst⟩
    | succ k =>
      obtain ⟨st1, h1, hst1⟩ := ih (i + 1) hist1 k (by omega)
      refine ⟨st1, ?_, hst1⟩
      rw [List.getElem?_cons_succ, h1]
      have : i + 1 + k = i + (k + 1) := by omega
      rw [this]

theorem send_calls_report (env : Env) (w : World) :
    send_calls (report env w)
      = send_calls (sends env w.puf_data 16 0
          (w.trace ++ [Event.call Fn.read_sram_and_generate_key])) := by
  rw [report_eq]
  simp [send_calls, Event.send, List.filterMap_append]

theorem send_calls_report_length (env : Env) (w : World) :
    (send_calls (report env w)).length = 16 := by
  rw [send_calls_report, send_calls_sends_length]

theorem send_calls_report_get (env : Env) (w : World) (k : Nat) (hk : k < 16) :
    ∃ st, (send_calls (report env w))[k]?
        = some ⟨record w.puf_data k, 13, env.HAL_MAX_DELAY, st⟩
      ∧ (accepts_all env → st = HAL_StatusTypeDef.HAL_OK) := by
  rw [send_calls_report]
  obtain ⟨st, h, hst⟩ := send_calls_sends_get env w.puf_data 16 0 _ k hk
  exact ⟨st, by simpa using h, hst⟩

theorem send_calls_report_take (env : Env) (w : World) (k : Nat) (hk : k ≤ 16)
    (hok : ∀ j, j < k → ∀ c, (send_calls (report env w))[j]? = some c →
      c.status = HAL_StatusTypeDef.HAL_OK) :
    (send_calls (report env w)).take k
      = (List.range k).map
          (fun j => (⟨record w.puf_data j, 13, env.HAL_MAX_DELAY, HAL_StatusTypeDef.HAL_OK⟩ : SendCall)) := by
  apply List.ext_getElem?
  intro j
  by_cases hj : j < k
  · obtain ⟨st, h, _⟩ := send_calls_report_get env w j (by omega)
    have hst := hok j hj _ h
    simp only at hst
    rw [List.getElem?_take_of_lt hj, h, hst, List.getElem?_map, List.getElem?_range hj]
    rfl
  · rw [List.getElem?_eq_none (by simp; omega), List.getElem?_eq_none (by simp; omega)]

theorem wire_of_ok_calls (puf : Fin 16 → Fin 256) (delay k : Nat) :
    ((((List.range k).map
        (fun j => (⟨record puf j, 13, delay, HAL_StatusTypeDef.HAL_OK⟩ : SendCall))).filter
          (fun c => c.status = HAL_StatusTypeDef.HAL_OK)).map SendCall.data)
      = (List.range k).map (record puf) := by
  rw [List.filter_eq_self.mpr (by simp), List.map_map]
  rfl

/-- When the first `k` transmissions all returned `HAL_OK`, the wire starts
with the first `k` records. -/
theorem wire_starts_with_records (env : Env) (w : World) (k : Nat) (hk : k ≤ 16)
    (hok : ∀ j, j < k → ∀ c, (send_calls (report env w))[j]? = some c →
      c.status = HAL_StatusTypeDef.HAL_OK) :
    ((List.range k).map (record w.puf_data)).flatten <+: wire (report env w) := by
  unfold wire
  rw [← List.take_append_drop k (send_calls (report env w)), List.filter_append, List.map_append,
    List.flatten_append, send_calls_report_take env w k hk hok, wire_of_ok_calls]
  exact List.prefix_append _ _

theorem send_calls_accepts_all (env : Env) (w : World) (h : accepts_all env) :
    send_calls (report env w)
      = (List.range 16).map
          (fun j => (⟨record w.puf_data j, 13, env.HAL_MAX_DELAY, HAL_StatusTypeDef.HAL_OK⟩ : SendCall)) := by
  rw [← send_calls_report_take env w 16 (le_refl _) (by
    intro j hj c hc
    obtain ⟨st, h1, hst⟩ := send_calls_report_get env w j hj
    rw [h1] at hc
    cases hc
    exact hst h)]
  rw [List.take_of_length_le (by rw [send_calls_report_length])]

theorem wire_accepts_all (env : Env) (w : World) (h : accepts_all env) :
    wire (report env w) = ((List.range 16).map (record w.puf_data)).flatten := by
  unfold wire
  rw [send_calls_accepts_all env w h, wire_of_ok_calls]

/-! ## The start-up sequence in closed form -/

theorem main_bring_up_ok (env : Env) (puf : Fin 16 → Fin 256)
    (h1 : env.HAL_RCC_OscConfig = HAL_StatusTypeDef.HAL_OK)
    (h2 : env.HAL_RCC_ClockConfig = HAL_StatusTypeDef.HAL_OK)
    (h3 : env.HAL_UART_Init = HAL_StatusTypeDef.HAL_OK) :
    ∃ w0, main env (boot puf)
        = M.bind (read_sram_and_generate_key env) (fun _ => spin Halt.main_loop) w0 ∧
      w0.puf_data = puf ∧ w0.irq_disabled = false ∧
      send_calls w0.trace = [] ∧
      Event.call Fn.read_sram_and_generate_key ∉ w0.trace ∧
      Event.call Fn.Error_Handler ∉ w0.trace ∧
      List.Sublist [Event.HAL_Init env.HAL_Init, Event.ret Fn.SystemClock_Config,
        Event.ret Fn.MX_GPIO_Init, Event.ret Fn.MX_USART2_UART_Init] w0.trace ∧
      Event.ret Fn.read_sram_and_generate_key ∉ w0.trace ∧
      w0.trace.length = 20 := by
  simp only [main, bind, M.bind, emit, HAL_Init, SystemClock_Config, HAL_RCC_OscConfig,
    HAL_RCC_ClockConfig, MX_GPIO_Init, MX_USART2_UART_Init, HAL_UART_Init, Error_Handler, spin,
    h1, h2, h3, ne_eq, not_true_eq_false, ite_false, pure, M.pure, boot, List.nil_append,
    List.cons_append, List.singleton_append]
  refine ⟨_, rfl, rfl, rfl, ?_, ?_, ?_, ?_, ?_, rfl⟩
  · simp [send_calls, Event.send]
  · simp
  · simp
  · dsimp only
    generalize env.HAL_Init = s
    cases s <;> decide
  · simp

theorem main_bring_up_fails (env : Env) (puf : Fin 16 → Fin 256)
    (h : ¬ (env.HAL_RCC_OscConfig = HAL_StatusTypeDef.HAL_OK ∧
        env.HAL_RCC_ClockConfig = HAL_StatusTypeDef.HAL_OK ∧
        env.HAL_UART_Init = HAL_StatusTypeDef.HAL_OK)) :
    ∃ w1, main env (boot puf) = Res.spin Halt.Error_Handler w1 ∧
      w1.puf_data = puf ∧ w1.irq_disabled = true ∧
      send_calls w1.trace = [] ∧
      Event.call Fn.read_sram_and_generate_key ∉ w1.trace ∧
      Event.call Fn.Error_Handler ∈ w1.trace := by
  by_cases h1 : env.HAL_RCC_OscConfig = HAL_StatusTypeDef.HAL_OK
  · by_cases h2 : env.HAL_RCC_ClockConfig = HAL_StatusTypeDef.HAL_OK
    · have h3 : ¬ env.HAL_UART_Init = HAL_StatusTypeDef.HAL_OK := fun h3 => h ⟨h1, h2, h3⟩
      simp only [main, bind, M.bind, emit, HAL_Init, SystemClock_Config, HAL_RCC_OscConfig,
        HAL_RCC_ClockConfig, MX_GPIO_Init, MX_USART2_UART_Init, HAL_UART_Init, Error_Handler, spin,
        h1, h2, h3, ne_eq, not_true_eq_false, not_false_eq_true, ite_false, ite_true, pure,
        M.pure, boot, List.nil_append, List.cons_append, List.singleton_append]
      exact ⟨_, rfl, rfl, rfl, by simp [send_calls, Event.send], by simp, by simp⟩
    · simp only [main, bind, M.bind, emit, HAL_Init, SystemClock_Config, HAL_RCC_OscConfig,
        HAL_RCC_ClockConfig, MX_GPIO_Init, MX_USART2_UART_Init, HAL_UART_Init, Error_Handler, spin,
        h1, h2, ne_eq, not_true_eq_false, not_false_eq_true, ite_false, ite_true, pure,
        M.pure, boot, List.nil_append, List.cons_append, List.singleton_append]
      exact ⟨_, rfl, rfl, rfl, by simp [send_calls, Event.send], by simp, by simp⟩
  · simp only [main, bind, M.bind, emit, HAL_Init, SystemClock_Config, HAL_RCC_OscConfig,
      HAL_RCC_ClockConfig, MX_GPIO_Init, MX_USART2_UART_Init, HAL_UART_Init, Error_Handler, spin,
      h1, ne_eq, not_true_eq_false, not_false_eq_true, ite_false, ite_true, pure,
      M.pure, boot, List.nil_append, List.cons_append, List.singleton_append]
    exact ⟨_, rfl, rfl, rfl, by simp [send_calls, Event.send], by simp, by simp⟩

theorem sends_are_transmissions (env : Env) (puf : Fin 16 → Fin 256) (n : Nat) :
    ∀ (i : Nat) (hist : List Event) (e : Event), e ∈ sends env puf n i hist →
      ∃ data size timeout status, e = Event.HAL_UART_Transmit data size timeout status := by
  induction n with
  | zero => intro i hist e he; simp [sends] at he
  | succ n ih =>
    intro i hist e he
    simp only [sends, List.mem_cons] at he
    rcases he with rfl | he
    · exact ⟨_, _, _, _, rfl⟩
    · exact ih _ _ e he

theorem call_not_mem_sends (env : Env) (puf : Fin 16 → Fin 256) (n i : Nat) (hist : List Event)
    (f : Fn) : Event.call f ∉ sends env puf n i hist := by
  intro h
  obtain ⟨_, _, _, _, he⟩ := sends_are_transmissions env puf n i hist _ h
  cases he

theorem ret_not_mem_sends (env : Env) (puf : Fin 16 → Fin 256) (n i : Nat) (hist : List Event)
    (f : Fn) : Event.ret f ∉ sends env puf n i hist := by
  intro h
  obtain ⟨_, _, _, _, he⟩ := sends_are_transmissions env puf n i hist _ h
  cases he

theorem getElem?_unique_mid {α : Type} (pre post : List α) (a : α) (n : Nat)
    (h1 : a ∉ pre) (h2 : a ∉ post) (h : (pre ++ a :: post)[n]? = some a) :
    n = pre.length := by
  rcases Nat.lt_trichotomy n pre.length with hlt | heq | hgt
  · rw [List.getElem?_append_left hlt] at h
    exact absurd (List.getElem?_mem h) h1
  · exact heq
  · rw [List.getElem?_append_right (Nat.le_of_lt hgt)] at h
    obtain ⟨m, hm⟩ : ∃ m, n - pre.length = m + 1 := ⟨n - pre.length - 1, by omega⟩
    rw [hm, List.getElem?_cons_succ] at h
    exact absurd (List.getElem?_mem h) h2

theorem main_ok (env : Env) (puf : Fin 16 → Fin 256)
    (h1 : env.HAL_RCC_OscConfig = HAL_StatusTypeDef.HAL_OK)
    (h2 : env.HAL_RCC_ClockConfig = HAL_StatusTypeDef.HAL_OK)
    (h3 : env.HAL_UART_Init = HAL_StatusTypeDef.HAL_OK) :
    ∃ w0 w1, main env (boot puf) = Res.spin Halt.main_loop w1 ∧
      w0.puf_data = puf ∧ w1.puf_data = puf ∧ w1.irq_disabled = false ∧
      w1.trace = w0.trace ++ Event.call Fn.read_sram_and_generate_key ::
        (sends env puf 16 0 (w0.trace ++ [Event.call Fn.read_sram_and_generate_key])
          ++ [Event.ret Fn.read_sram_and_generate_key]) ∧
      w1.trace = w0.trace ++ report env w0 ∧
      send_calls w0.trace = [] ∧
      Event.call Fn.read_sram_and_generate_key ∉ w0.trace ∧
      Event.call Fn.Error_Handler ∉ w0.trace ∧
      List.Sublist [Event.HAL_Init env.HAL_Init, Event.ret Fn.SystemClock_Config,
        Event.ret Fn.MX_GPIO_Init, Event.ret Fn.MX_USART2_UART_Init] w0.trace ∧
      Event.ret Fn.read_sram_and_generate_key ∉ w0.trace ∧
      w0.trace.length = 20 := by
  obtain ⟨w0, hm, hp, hi, hs, hc, he, hsub⟩ := main_bring_up_ok env puf h1 h2 h3
  refine ⟨w0,
    { w0 with trace := w0.trace ++ (Event.call Fn.read_sram_and_generate_key ::
        sends env w0.puf_data 16 0 (w0.trace ++ [Event.call Fn.read_sram_and_generate_key]))
        ++ [Event.ret Fn.read_sram_and_generate_key] },
    ?_, hp, hp, hi, ?_, ?_, hs, hc, he, hsub⟩
  · rw [hm]
    simp only [M.bind, read_sram_and_generate_key_eq, spin]
  · simp [hp]
  · rw [report_eq]
    simp

/-! ## The form of a record -/

theorem record_form (puf : Fin 16 → Fin 256) (i : Nat) (hi : i < 16) :
    record puf i
      = "PUF[".toList ++ dec2 i ++ "]: ".toList ++ hex2 (byteAt puf i) ++ "\r\n".toList :=
  format_record_eq ⟨i, hi⟩ ⟨byteAt puf i, byteAt_lt puf i⟩

set_option maxRecDepth 100000 in
theorem hexDigitValue_hexChar : ∀ d : Fin 16, hexDigitValue (hexChar d.val) = some d.val := by
  decide

theorem hex2_value (v : Nat) (hv : v < 256) :
    hexDigitValue (hexChar (v / 16)) = some (v / 16) ∧
    hexDigitValue (hexChar (v % 16)) = some (v % 16) :=
  ⟨hexDigitValue_hexChar ⟨v / 16, by omega⟩, hexDigitValue_hexChar ⟨v % 16, by omega⟩⟩

theorem hex2_inj (u v : Nat) (hu : u < 256) (hv : v < 256) (h : hex2 u = hex2 v) : u = v := by
  simp only [hex2, List.cons.injEq, and_true] at h
  have h1 := (hex2_value u hu).1
  have h2 := (hex2_value u hu).2
  rw [h.1, (hex2_value v hv).1] at h1
  rw [h.2, (hex2_value v hv).2] at h2
  injection h1 with h1
  injection h2 with h2
  omega

theorem record_inj (p q : Fin 16 → Fin 256) (i : Nat) (hi : i < 16)
    (h : record p i = record q i) : byteAt p i = byteAt q i := by
  rw [record_form p i hi, record_form q i hi] at h
  have h1 := List.append_cancel_right h
  have h2 := List.append_cancel_left h1
  exact hex2_inj _ _ (byteAt_lt p i) (byteAt_lt q i) h2

theorem byteAt_fin (puf : Fin 16 → Fin 256) (i : Fin 16) : byteAt puf i.val = (puf i).val := by
  simp [byteAt]

theorem lines_eq (env : Env) (w : World) :
    lines env w = (List.range 16).map (record w.puf_data) := by
  apply List.ext_getElem?
  intro k
  show ((send_calls (report env w)).map SendCall.data)[k]? = _
  by_cases hk : k < 16
  · obtain ⟨st, h, _⟩ := send_calls_report_get env w k hk
    rw [List.getElem?_map, h, List.getElem?_map, List.getElem?_range hk]
    rfl
  · rw [List.getElem?_eq_none (by simp [send_calls_report_length]; omega),
      List.getElem?_eq_none (by simp; omega)]

theorem lines_get (env : Env) (w : World) (i : Fin 16) :
    (lines env w)[i.val]? = some (record w.puf_data i.val) := by
  rw [lines_eq, List.getElem?_map, List.getElem?_range i.isLt]
  rfl

/-! ## The report (C1, C2, C5, C6, C7) -/

/-- C1: when the output channel accepts every send, `read_sram_and_generate_key`
returns after exactly 16 sends and the bytes on the wire are exactly the 16
records in ascending index order, nothing else; record `i` is `PUF[`, then the
two-digit zero-padded decimal rendering of `i` (`00` up to `15`), then `]: `,
then two characters, then carriage return and line feed. -/
theorem C1_report_is_sixteen_lines (env : Env) (w : World) (h : accepts_all env) :
    (∃ w1, read_sram_and_generate_key env w = Res.ret () w1) ∧
    (send_calls (report env w)).length = 16 ∧
    wire (report env w) = ((List.range 16).map (record w.puf_data)).flatten ∧
    (∀ i : Fin 16, ∃ c1 c2,
      record w.puf_data i.val
        = "PUF[".toList ++ dec2 i.val ++ "]: ".toList ++ [c1, c2] ++ "\r\n".toList) ∧
    (List.range 16).map dec2
      = ["00", "01", "02", "03", "04", "05", "06", "07",
         "08", "09", "10", "11", "12", "13", "14", "15"].map String.toList := by
  refine ⟨⟨_, read_sram_and_generate_key_eq env w⟩, send_calls_report_length env w,
    wire_accepts_all env w h, ?_, by decide⟩
  intro i
  exact ⟨hexChar (byteAt w.puf_data i.val / 16), hexChar (byteAt w.puf_data i.val % 16),
    record_form w.puf_data i.val i.isLt⟩

/-- C1 at a concrete input: the all-accepting environment `env_ok` and the
reservoir of the scenario. -/
theorem C1_report_is_sixteen_lines_witness :
    accepts_all env_ok ∧
    (send_calls (report env_ok (boot puf_scenario))).length = 16 ∧
    wire (report env_ok (boot puf_scenario))
      = ((List.range 16).map (record puf_scenario)).flatten :=
  ⟨fun _ _ _ _ => rfl,
    (C1_report_is_sixteen_lines env_ok (boot puf_scenario) (fun _ _ _ _ => rfl)).2.1,
    (C1_report_is_sixteen_lines env_ok (boot puf_scenario) (fun _ _ _ _ => rfl)).2.2.1⟩

/-- C2: the value field of line `i` is two characters from `0`..`9`, `A`..`F`
whose base-16 value is `puf_data[i]`; `0x07` is rendered `07` and `0xFF` is
rendered `FF`; and for a reservoir that begins `0x3F, 0x00, 0xFF` the first
three lines are `PUF[00]: 3F`, `PUF[01]: 00`, `PUF[02]: FF`, each followed by
carriage return and line feed. -/
theorem C2_value_field (env : Env) (w : World) :
    (∀ i : Fin 16, ∃ c1 c2 a b,
      (lines env w)[i.val]?
        = some ("PUF[".toList ++ dec2 i.val ++ "]: ".toList ++ [c1, c2] ++ "\r\n".toList) ∧
      hexDigitValue c1 = some a ∧ hexDigitValue c2 = some b ∧
      16 * a + b = (w.puf_data i).val) ∧
    fmt_02X 0x07 = "07".toList ∧ fmt_02X 0xFF = "FF".toList ∧
    (w.puf_data 0 = 0x3F → w.puf_data 1 = 0x00 → w.puf_data 2 = 0xFF →
      (lines env w).take 3
        = ["PUF[00]: 3F\r\n".toList, "PUF[01]: 00\r\n".toList, "PUF[02]: FF\r\n".toList]) := by
  refine ⟨?_, by decide, by decide, ?_⟩
  · intro i
    have hv := hex2_value (byteAt w.puf_data i.val) (byteAt_lt _ _)
    refine ⟨hexChar (byteAt w.puf_data i.val / 16), hexChar (byteAt w.puf_data i.val % 16),
      _, _, ?_, hv.1, hv.2, ?_⟩
    · rw [lines_get, record_form w.puf_data i.val i.isLt]
      rfl
    · rw [← byteAt_fin]
      omega
  · intro h0 h1 h2
    have e0 : byteAt w.puf_data 0 = 0x3F := by
      have := byteAt_fin w.puf_data 0
      rw [h0] at this
      exact this
    have e1 : byteAt w.puf_data 1 = 0x00 := by
      have := byteAt_fin w.puf_data 1
      rw [h1] at this
      exact this
    have e2 : byteAt w.puf_data 2 = 0xFF := by
      have := byteAt_fin w.puf_data 2
      rw [h2] at this
      exact this
    rw [lines_eq]
    simp only [List.range, List.range.loop, List.map_cons, List.take_succ_cons, List.take_zero,
      record, e0, e1, e2]
    decide

/-- C2 at a concrete input: the first three lines for the reservoir of the
scenario. -/
theorem C2_value_field_witness :
    puf_scenario 0 = 0x3F ∧ puf_scenario 1 = 0x00 ∧ puf_scenario 2 = 0xFF ∧
    (lines env_ok (boot puf_scenario)).take 3
      = ["PUF[00]: 3F\r\n".toList, "PUF[01]: 00\r\n".toList, "PUF[02]: FF\r\n".toList] :=
  ⟨by decide, by decide, by decide,
    (C2_value_field env_ok (boot puf_scenario)).2.2.2 (by decide) (by decide) (by decide)⟩

/-- C5: the report is a function of the reservoir content alone.  With output
channels that accept every send, a second invocation of the reporter right
after the first (nothing wrote `puf_data` in between) puts the same bytes on
the wire as the first, and so does an invocation in any state with the same
reservoir content. -/
theorem C5_report_depends_on_reservoir_only (env env1 : Env) (w w1 : World)
    (h : accepts_all env) (h1 : accepts_all env1) :
    (∃ v1 v2, read_sram_and_generate_key env w = Res.ret () v1 ∧
      read_sram_and_generate_key env1 v1 = Res.ret () v2 ∧
      v1.puf_data = w.puf_data ∧
      wire (report env1 v1) = wire (report env w)) ∧
    (w1.puf_data = w.puf_data → wire (report env1 w1) = wire (report env w)) := by
  refine ⟨⟨_, _, read_sram_and_generate_key_eq env w, read_sram_and_generate_key_eq env1 _, rfl,
    ?_⟩, ?_⟩
  · rw [wire_accepts_all env1 _ h1, wire_accepts_all env w h]
  · intro hp
    rw [wire_accepts_all env1 _ h1, wire_accepts_all env w h, hp]

/-- C5 at a concrete input: the all-accepting environment, the reservoir of the
scenario, and a second state with the same reservoir in which interrupts are
masked. -/
theorem C5_report_depends_on_reservoir_only_witness :
    accepts_all env_ok ∧
    wire (report env_ok { boot puf_scenario with irq_disabled := true })
      = wire (report env_ok (boot puf_scenario)) :=
  ⟨fun _ _ _ _ => rfl,
    (C5_report_depends_on_reservoir_only env_ok env_ok (boot puf_scenario)
      { boot puf_scenario with irq_disabled := true }
      (fun _ _ _ _ => rfl) (fun _ _ _ _ => rfl)).2 rfl⟩

/-- C6 as stated fails: the length argument of the first send is 13, not 11
(the record `PUF[00]: 3F` is followed by carriage return and line feed). -/
theorem C6_counterexample :
    ¬ ((send_calls (report env_ok (boot puf_scenario)))[0]?.map SendCall.size = some 11) := by
  obtain ⟨st, h, _⟩ := send_calls_report_get env_ok (boot puf_scenario) 0 (by decide)
  rw [h]
  simp

/-- C6, amended: for every reservoir content and whatever the sends return, the
reporter issues exactly 16 send calls, one per record and never a batched one:
call `k` carries exactly the bytes of record `k`, its length argument is the
length of the record, 13 bytes (the terminating `NUL` is not among them), and
its timeout argument is `HAL_MAX_DELAY`. -/
theorem C6_one_send_per_record (env : Env) (w : World) :
    (send_calls (report env w)).length = 16 ∧
    ∀ k : Fin 16, ∃ st,
      (send_calls (report env w))[k.val]?
        = some ⟨record w.puf_data k.val, 13, env.HAL_MAX_DELAY, st⟩ ∧
      (record w.puf_data k.val).length = 13 ∧
      NUL ∉ record w.puf_data k.val := by
  refine ⟨send_calls_report_length env w, ?_⟩
  intro k
  obtain ⟨st, h, _⟩ := send_calls_report_get env w k.val k.isLt
  exact ⟨st, h, record_length w.puf_data k.val k.isLt, record_no_NUL w.puf_data k.val k.isLt⟩

/-- C7: the report determines the reservoir.  For two reservoir contents, line
`i` of the two reports differs exactly when the contents differ at byte `i`;
the contents differ exactly when some line differs; and every line of either
report has the form `PUF[II]: VV` followed by carriage return and line feed. -/
theorem C7_report_determines_reservoir (env env1 : Env) (w w1 : World) :
    (∀ i : Fin 16,
      (lines env w)[i.val]? ≠ (lines env1 w1)[i.val]? ↔ w.puf_data i ≠ w1.puf_data i) ∧
    (w.puf_data ≠ w1.puf_data ↔
      ∃ i : Fin 16, (lines env w)[i.val]? ≠ (lines env1 w1)[i.val]?) ∧
    (∀ i : Fin 16, ∃ c1 c2 d1 d2,
      (lines env w)[i.val]?
        = some ("PUF[".toList ++ dec2 i.val ++ "]: ".toList ++ [c1, c2] ++ "\r\n".toList) ∧
      (lines env1 w1)[i.val]?
        = some ("PUF[".toList ++ dec2 i.val ++ "]: ".toList ++ [d1, d2] ++ "\r\n".toList)) := by
  have key : ∀ i : Fin 16,
      (lines env w)[i.val]? ≠ (lines env1 w1)[i.val]? ↔ w.puf_data i ≠ w1.puf_data i := by
    intro i
    rw [lines_get, lines_get]
    constructor
    · intro hne heq
      apply hne
      simp only [record, byteAt_fin, heq]
    · intro hne heq
      apply hne
      have := record_inj w.puf_data w1.puf_data i.val i.isLt (Option.some.inj heq)
      rw [byteAt_fin, byteAt_fin] at this
      exact Fin.ext this
  refine ⟨key, ?_, ?_⟩
  · constructor
    · intro hne
      by_contra hall
      apply hne
      funext i
      by_contra hi
      exact hall ⟨i, (key i).mpr hi⟩
    · rintro ⟨i, hi⟩ heq
      exact (key i).mp hi (by rw [heq])
  · intro i
    refine ⟨hexChar (byteAt w.puf_data i.val / 16), hexChar (byteAt w.puf_data i.val % 16),
      hexChar (byteAt w1.puf_data i.val / 16), hexChar (byteAt w1.puf_data i.val % 16), ?_, ?_⟩
    · rw [lines_get, record_form w.puf_data i.val i.isLt]
      rfl
    · rw [lines_get, record_form w1.puf_data i.val i.isLt]
      rfl

/-! ## Failing sends (C3, C4) -/

theorem timeout3_statuses (puf : Fin 16 → Fin 256) (hist : List Event)
    (h : send_calls hist = []) :
    (send_calls (sends env_timeout3 puf 16 0
        (hist ++ [Event.call Fn.read_sram_and_generate_key]))).map SendCall.status
      = [HAL_StatusTypeDef.HAL_OK, HAL_StatusTypeDef.HAL_OK, HAL_StatusTypeDef.HAL_OK,
         HAL_StatusTypeDef.HAL_TIMEOUT, HAL_StatusTypeDef.HAL_OK, HAL_StatusTypeDef.HAL_OK,
         HAL_StatusTypeDef.HAL_OK, HAL_StatusTypeDef.HAL_OK, HAL_StatusTypeDef.HAL_OK,
         HAL_StatusTypeDef.HAL_OK, HAL_StatusTypeDef.HAL_OK, HAL_StatusTypeDef.HAL_OK,
         HAL_StatusTypeDef.HAL_OK, HAL_StatusTypeDef.HAL_OK, HAL_StatusTypeDef.HAL_OK,
         HAL_StatusTypeDef.HAL_OK] := by
  unfold send_calls at h
  simp [sends, env_timeout3, send_calls, List.filterMap_append, Event.send, h]

theorem timeout3_report_statuses :
    (send_calls (report env_timeout3 (boot puf_scenario))).map SendCall.status
      = [HAL_StatusTypeDef.HAL_OK, HAL_StatusTypeDef.HAL_OK, HAL_StatusTypeDef.HAL_OK,
         HAL_StatusTypeDef.HAL_TIMEOUT, HAL_StatusTypeDef.HAL_OK, HAL_StatusTypeDef.HAL_OK,
         HAL_StatusTypeDef.HAL_OK, HAL_StatusTypeDef.HAL_OK, HAL_StatusTypeDef.HAL_OK,
         HAL_StatusTypeDef.HAL_OK, HAL_StatusTypeDef.HAL_OK, HAL_StatusTypeDef.HAL_OK,
         HAL_StatusTypeDef.HAL_OK, HAL_StatusTypeDef.HAL_OK, HAL_StatusTypeDef.HAL_OK,
         HAL_StatusTypeDef.HAL_OK] := by
  rw [send_calls_report]
  exact timeout3_statuses puf_scenario (boot puf_scenario).trace rfl

theorem status_get_of_map (cs : List SendCall) (sts : List HAL_StatusTypeDef)
    (h : cs.map SendCall.status = sts) (k : Nat) :
    cs[k]?.map SendCall.status = sts[k]? := by
  rw [← h, List.getElem?_map]

theorem report_no_Error_Handler (env : Env) (w : World) :
    Event.call Fn.Error_Handler ∉ report env w := by
  rw [report_eq]
  simp [call_not_mem_sends]

theorem main_halted_ok (env : Env) (puf : Fin 16 → Fin 256) (h : bring_up_ok env) :
    (main env (boot puf)).halted = some Halt.main_loop := by
  obtain ⟨w0, w1, hm, _⟩ := main_ok env puf h.1 h.2.1 h.2.2
  rw [hm]
  rfl

theorem main_halted_fails (env : Env) (puf : Fin 16 → Fin 256) (h : ¬ bring_up_ok env) :
    (main env (boot puf)).halted = some Halt.Error_Handler := by
  obtain ⟨w1, hm, _⟩ := main_bring_up_fails env puf h
  rw [hm]
  rfl

theorem main_ok_send_calls (env : Env) (puf : Fin 16 → Fin 256) (h : bring_up_ok env) :
    ∃ hist, send_calls hist = [] ∧
      send_calls (main env (boot puf)).trace
        = send_calls (sends env puf 16 0 (hist ++ [Event.call Fn.read_sram_and_generate_key])) := by
  obtain ⟨w0, w1, hm, hp, _, _, _, htr, hs, _⟩ := main_ok env puf h.1 h.2.1 h.2.2
  refine ⟨w0.trace, hs, ?_⟩
  rw [hm]
  show send_calls w1.trace = _
  rw [htr]
  unfold send_calls at hs ⊢
  rw [List.filterMap_append, hs, List.nil_append]
  have := send_calls_report env w0
  unfold send_calls at this
  rw [this, hp]

/-- C3 as stated fails: with the reservoir of the scenario and a channel that
times out on record 3 only, the send of record 3 reports `HAL_TIMEOUT` and the
reporter still makes the send attempts for the records after it. -/
theorem C3_counterexample :
    ¬ ((send_calls (report env_timeout3 (boot puf_scenario)))[3]?.map SendCall.status
          = some HAL_StatusTypeDef.HAL_TIMEOUT →
        ∀ j, 3 < j → (send_calls (report env_timeout3 (boot puf_scenario)))[j]? = none) := by
  intro h
  have h4 := h (by rw [status_get_of_map _ _ timeout3_report_statuses 3]; rfl) 4 (by decide)
  obtain ⟨st, hst, _⟩ := send_calls_report_get env_timeout3 (boot puf_scenario) 4 (by decide)
  rw [h4] at hst
  cases hst

/-- C3, amended: the status of a send is discarded.  For every reservoir
content and every `k` below 16, if the send of record `k` is the first to
report a failure or timeout, then records `0..k-1` have been transmitted in
full (they are the bytes on the wire so far, in order), record `k` was handed
over in full, and the reporter still makes the send attempt for every record
after `k`: 16 send calls in all. -/
theorem C3_sends_continue_after_failure (env : Env) (w : World) (k : Nat) (hk : k < 16)
    (hfail : ∃ st, (send_calls (report env w))[k]?.map SendCall.status = some st ∧
      st ≠ HAL_StatusTypeDef.HAL_OK)
    (hfirst : ∀ j, j < k →
      (send_calls (report env w))[j]?.map SendCall.status = some HAL_StatusTypeDef.HAL_OK) :
    (∀ j, j < k → (send_calls (report env w))[j]?
      = some ⟨record w.puf_data j, 13, env.HAL_MAX_DELAY, HAL_StatusTypeDef.HAL_OK⟩) ∧
    ((List.range k).map (record w.puf_data)).flatten <+: wire (report env w) ∧
    (∃ st, st ≠ HAL_StatusTypeDef.HAL_OK ∧ (send_calls (report env w))[k]?
      = some ⟨record w.puf_data k, 13, env.HAL_MAX_DELAY, st⟩) ∧
    (send_calls (report env w)).length = 16 ∧
    (∀ j, k < j → j < 16 → ∃ st, (send_calls (report env w))[j]?
      = some ⟨record w.puf_data j, 13, env.HAL_MAX_DELAY, st⟩) := by
  have hok : ∀ j, j < k → ∀ c, (send_calls (report env w))[j]? = some c →
      c.status = HAL_StatusTypeDef.HAL_OK := by
    intro j hj c hc
    have := hfirst j hj
    rw [hc] at this
    exact Option.some.inj this
  refine ⟨?_, wire_starts_with_records env w k (Nat.le_of_lt hk) hok, ?_, send_calls_report_length env w, ?_⟩
  · intro j hj
    obtain ⟨st, h, _⟩ := send_calls_report_get env w j (by omega)
    have := hok j hj _ h
    simp only at this
    rw [h, this]
  · obtain ⟨st, h, _⟩ := send_calls_report_get env w k hk
    obtain ⟨st1, h1, hne⟩ := hfail
    rw [h] at h1
    have : st = st1 := Option.some.inj h1
    exact ⟨st, this ▸ hne, h⟩
  · intro j _ hj
    obtain ⟨st, h, _⟩ := send_calls_report_get env w j hj
    exact ⟨st, h⟩

/-- C3 (amended) at a concrete input: the channel that times out on record 3
only. -/
theorem C3_sends_continue_after_failure_witness :
    (∃ st, (send_calls (report env_timeout3 (boot puf_scenario)))[3]?.map SendCall.status
        = some st ∧ st ≠ HAL_StatusTypeDef.HAL_OK) ∧
    (send_calls (report env_timeout3 (boot puf_scenario))).length = 16 ∧
    ((List.range 3).map (record puf_scenario)).flatten
      <+: wire (report env_timeout3 (boot puf_scenario)) :=
  have hfail : ∃ st, (send_calls (report env_timeout3 (boot puf_scenario)))[3]?.map SendCall.status
        = some st ∧ st ≠ HAL_StatusTypeDef.HAL_OK :=
    ⟨HAL_StatusTypeDef.HAL_TIMEOUT,
      by rw [status_get_of_map _ _ timeout3_report_statuses 3]; rfl, by decide⟩
  have hfirst : ∀ j, j < 3 →
      (send_calls (report env_timeout3 (boot puf_scenario)))[j]?.map SendCall.status
        = some HAL_StatusTypeDef.HAL_OK := by
    intro j hj
    rw [status_get_of_map _ _ timeout3_report_statuses j]
    interval_cases j <;> rfl
  ⟨hfail,
    (C3_sends_continue_after_failure env_timeout3 (boot puf_scenario) 3 (by decide)
      hfail hfirst).2.2.2.1,
    (C3_sends_continue_after_failure env_timeout3 (boot puf_scenario) 3 (by decide)
      hfail hfirst).2.1⟩

/-- C4 as stated fails: in the run with the channel that times out on record 3,
a send returns a failure status and the run still ends in the idle loop of
`main`. -/
theorem C4_counterexample :
    ¬ ((∃ c, c ∈ send_calls (main env_timeout3 (boot puf_scenario)).trace ∧
          c.status ≠ HAL_StatusTypeDef.HAL_OK) →
        (main env_timeout3 (boot puf_scenario)).halted ≠ some Halt.main_loop) := by
  intro h
  refine h ?_ (main_halted_ok env_timeout3 puf_scenario ⟨rfl, rfl, rfl⟩)
  obtain ⟨hist, hs, hc⟩ := main_ok_send_calls env_timeout3 puf_scenario ⟨rfl, rfl, rfl⟩
  have hst := status_get_of_map _ _ (timeout3_statuses puf_scenario hist hs) 3
  rw [← hc] at hst
  cases hget : (send_calls (main env_timeout3 (boot puf_scenario)).trace)[3]? with
  | none => rw [hget] at hst; cases hst
  | some c =>
    rw [hget] at hst
    refine ⟨c, List.getElem?_mem hget, ?_⟩
    have : c.status = HAL_StatusTypeDef.HAL_TIMEOUT := Option.some.inj hst
    rw [this]
    decide

/-- C4, amended: the status returned by the send of a record is discarded.
Whatever the sends return, `read_sram_and_generate_key` makes its 16 send
attempts and returns without entering `Error_Handler` and without masking
interrupts; a run of `main` ends in the idle loop (IDLE) exactly when the
bring-up configuration calls all returned `HAL_OK`, and enters `Error_Handler`
and ends there (FAULT) exactly when one of them did not. -/
theorem C4_send_status_is_discarded (env : Env) (puf : Fin 16 → Fin 256) (w : World) :
    (∃ w1, read_sram_and_generate_key env w = Res.ret () w1 ∧
      w1.irq_disabled = w.irq_disabled) ∧
    Event.call Fn.Error_Handler ∉ report env w ∧
    (send_calls (report env w)).length = 16 ∧
    ((main env (boot puf)).halted = some Halt.main_loop ↔ bring_up_ok env) ∧
    ((main env (boot puf)).halted = some Halt.Error_Handler ↔ ¬ bring_up_ok env) ∧
    (Event.call Fn.Error_Handler ∈ (main env (boot puf)).trace ↔ ¬ bring_up_ok env) := by
  refine ⟨⟨_, read_sram_and_generate_key_eq env w, rfl⟩, report_no_Error_Handler env w,
    send_calls_report_length env w, ?_, ?_, ?_⟩
  · constructor
    · intro h
      by_contra hn
      rw [main_halted_fails env puf hn] at h
      cases h
    · exact main_halted_ok env puf
  · constructor
    · intro h hn
      rw [main_halted_ok env puf hn] at h
      cases h
    · exact main_halted_fails env puf
  · constructor
    · intro h hn
      obtain ⟨w0, w1, hm, _, _, _, htr, _, _, _, he, _⟩ := main_ok env puf hn.1 hn.2.1 hn.2.2
      rw [hm] at h
      change Event.call Fn.Error_Handler ∈ w1.trace at h
      rw [htr] at h
      simp [call_not_mem_sends] at h
      exact he h
    · intro hn
      obtain ⟨w1, hm, _, _, _, _, he⟩ := main_bring_up_fails env puf hn
      rw [hm]
      exact he

/-! ## The start-up sequence (C8) -/

theorem main_ok_trace_facts (env : Env) (puf : Fin 16 → Fin 256) (h : bring_up_ok env) :
    (main env (boot puf)).trace.count (Event.call Fn.read_sram_and_generate_key) = 1 ∧
    (main env (boot puf)).trace.count (Event.ret Fn.read_sram_and_generate_key) = 1 ∧
    (main env (boot puf)).trace.getLast? = some (Event.ret Fn.read_sram_and_generate_key) ∧
    (send_calls (main env (boot puf)).trace).length = 16 ∧
    (∀ n, (main env (boot puf)).trace[n]? = some (Event.call Fn.read_sram_and_generate_key) →
      List.Sublist [Event.HAL_Init env.HAL_Init, Event.ret Fn.SystemClock_Config,
        Event.ret Fn.MX_GPIO_Init, Event.ret Fn.MX_USART2_UART_Init]
        ((main env (boot puf)).trace.take n)) := by
  obtain ⟨hist, hs, hc⟩ := main_ok_send_calls env puf h
  obtain ⟨w0, w1, hm, _, _, _, htr, _, _, hcall, _, hsub, hret, _⟩ :=
    main_ok env puf h.1 h.2.1 h.2.2
  have hpost : Event.call Fn.read_sram_and_generate_key ∉
      sends env puf 16 0 (w0.trace ++ [Event.call Fn.read_sram_and_generate_key])
        ++ [Event.ret Fn.read_sram_and_generate_key] := by
    simp [call_not_mem_sends]
  have htrace : (main env (boot puf)).trace = w1.trace := by rw [hm]; rfl
  refine ⟨?_, ?_, ?_, ?_, ?_⟩
  · rw [htrace, htr, List.count_append, List.count_cons_self,
      List.count_eq_zero_of_not_mem hcall, List.count_eq_zero_of_not_mem hpost]
  · rw [htrace, htr, List.count_append, List.count_cons_of_ne (by simp), List.count_append,
      List.count_eq_zero_of_not_mem hret,
      List.count_eq_zero_of_not_mem (ret_not_mem_sends env puf 16 0 _ _)]
    rfl
  · rw [htrace, htr, ← List.cons_append, ← List.append_assoc]
    exact List.getLast?_concat _
  · rw [hc, send_calls_sends_length]
  · intro n hn
    rw [htrace, htr] at hn ⊢
    have := getElem?_unique_mid _ _ _ n hcall hpost hn
    rw [this, List.take_left']
    · exact hsub
    · rfl

theorem main_ok_call_index (env : Env) (puf : Fin 16 → Fin 256) (h : bring_up_ok env) :
    (main env (boot puf)).trace[20]? = some (Event.call Fn.read_sram_and_generate_key) := by
  obtain ⟨w0, w1, hm, _, _, _, htr, _, _, _, _, _, _, hlen⟩ :=
    main_ok env puf h.1 h.2.1 h.2.2
  rw [hm]
  change w1.trace[20]? = _
  rw [htr, List.getElem?_append_right (by rw [hlen]), hlen]
  rfl

theorem not_bring_up_ok_uart_down : ¬ bring_up_ok env_uart_down := by
  intro h
  cases h.2.2

/-- C8: in every run of `main` the reporter is invoked at most once, and where
it is invoked, `HAL_Init`, `SystemClock_Config`, `MX_GPIO_Init` and
`MX_USART2_UART_Init` have completed before, in this order.  If a bring-up
configuration call returns a status other than `HAL_OK`, the run enters
`Error_Handler` and stays there, the reporter is never invoked and no send is
ever made.  Otherwise the reporter is invoked and returns exactly once, makes
its 16 sends, and the run stays in the idle loop of `main`, where nothing more
happens. -/
theorem C8_start_up_sequence (env : Env) (puf : Fin 16 → Fin 256) :
    (main env (boot puf)).trace.count (Event.call Fn.read_sram_and_generate_key) ≤ 1 ∧
    (∀ n, (main env (boot puf)).trace[n]? = some (Event.call Fn.read_sram_and_generate_key) →
      List.Sublist [Event.HAL_Init env.HAL_Init, Event.ret Fn.SystemClock_Config,
        Event.ret Fn.MX_GPIO_Init, Event.ret Fn.MX_USART2_UART_Init]
        ((main env (boot puf)).trace.take n)) ∧
    (¬ bring_up_ok env →
      (main env (boot puf)).halted = some Halt.Error_Handler ∧
      Event.call Fn.Error_Handler ∈ (main env (boot puf)).trace ∧
      (main env (boot puf)).trace.count (Event.call Fn.read_sram_and_generate_key) = 0 ∧
      send_calls (main env (boot puf)).trace = []) ∧
    (bring_up_ok env →
      (main env (boot puf)).halted = some Halt.main_loop ∧
      Event.call Fn.Error_Handler ∉ (main env (boot puf)).trace ∧
      (main env (boot puf)).trace.count (Event.call Fn.read_sram_and_generate_key) = 1 ∧
      (main env (boot puf)).trace.count (Event.ret Fn.read_sram_and_generate_key) = 1 ∧
      (send_calls (main env (boot puf)).trace).length = 16 ∧
      (main env (boot puf)).trace.getLast? = some (Event.ret Fn.read_sram_and_generate_key)) := by
  have hfail : ¬ bring_up_ok env →
      (main env (boot puf)).halted = some Halt.Error_Handler ∧
      Event.call Fn.Error_Handler ∈ (main env (boot puf)).trace ∧
      (main env (boot puf)).trace.count (Event.call Fn.read_sram_and_generate_key) = 0 ∧
      send_calls (main env (boot puf)).trace = [] := by
    intro hn
    obtain ⟨w1, hm, _, _, hs, hc, he⟩ := main_bring_up_fails env puf hn
    rw [hm]
    exact ⟨rfl, he, List.count_eq_zero_of_not_mem hc, hs⟩
  by_cases hok : bring_up_ok env
  · obtain ⟨h1, h2, h3, h4, h5⟩ := main_ok_trace_facts env puf hok
    refine ⟨by rw [h1], h5, hfail, fun _ => ⟨main_halted_ok env puf hok, ?_, h1, h2, h4, h3⟩⟩
    obtain ⟨w0, w1, hm, _, _, _, htr, _, _, _, he, _⟩ := main_ok env puf hok.1 hok.2.1 hok.2.2
    rw [hm]
    change Event.call Fn.Error_Handler ∉ w1.trace
    rw [htr]
    simp [call_not_mem_sends, he]
  · obtain ⟨_, _, h3, _⟩ := hfail hok
    refine ⟨by rw [h3]; exact Nat.zero_le _, ?_, hfail, fun h => absurd h hok⟩
    intro n hn
    have := List.count_pos_iff.mpr (List.getElem?_mem hn)
    omega

/-- C8 at concrete inputs: a run in which bring-up succeeds ends in the idle
loop after 16 sends, and a run in which the UART cannot be initialised ends in
`Error_Handler` without any send. -/
theorem C8_start_up_sequence_witness :
    bring_up_ok env_ok ∧ ¬ bring_up_ok env_uart_down ∧
    (main env_ok (boot puf_scenario)).halted = some Halt.main_loop ∧
    (send_calls (main env_ok (boot puf_scenario)).trace).length = 16 ∧
    (main env_uart_down (boot puf_scenario)).halted = some Halt.Error_Handler ∧
    send_calls (main env_uart_down (boot puf_scenario)).trace = [] ∧
    (main env_ok (boot puf_scenario)).trace[20]?
      = some (Event.call Fn.read_sram_and_generate_key) ∧
    List.Sublist [Event.HAL_Init HAL_StatusTypeDef.HAL_OK, Event.ret Fn.SystemClock_Config,
      Event.ret Fn.MX_GPIO_Init, Event.ret Fn.MX_USART2_UART_Init]
      ((main env_ok (boot puf_scenario)).trace.take 20) :=
  ⟨⟨rfl, rfl, rfl⟩, not_bring_up_ok_uart_down,
    ((C8_start_up_sequence env_ok puf_scenario).2.2.2 ⟨rfl, rfl, rfl⟩).1,
    ((C8_start_up_sequence env_ok puf_scenario).2.2.2 ⟨rfl, rfl, rfl⟩).2.2.2.2.1,
    ((C8_start_up_sequence env_uart_down puf_scenario).2.2.1 not_bring_up_ok_uart_down).1,
    ((C8_start_up_sequence env_uart_down puf_scenario).2.2.1 not_bring_up_ok_uart_down).2.2.2,
    main_ok_call_index env_ok puf_scenario ⟨rfl, rfl, rfl⟩,
    (C8_start_up_sequence env_ok puf_scenario).2.1 20
      (main_ok_call_index env_ok puf_scenario ⟨rfl, rfl, rfl⟩)⟩

/-! ## Frame and bounds (C9, C10) -/

/-- C9: `read_sram_and_generate_key` leaves the reservoir unchanged.  For every
reservoir content and whatever the sends return, the call returns in a state
whose `puf_data`, `huart2` and interrupt mask are those before the call; the
only thing it adds to the trace, between its entry and its return, are
transmissions on the output channel. -/
theorem C9_reservoir_unchanged (env : Env) (w : World) :
    ∃ w1, read_sram_and_generate_key env w = Res.ret () w1 ∧
      w1.puf_data = w.puf_data ∧
      w1.huart2 = w.huart2 ∧
      w1.irq_disabled = w.irq_disabled ∧
      w1.trace = w.trace ++ report env w ∧
      ∃ tx, report env w
          = Event.call Fn.read_sram_and_generate_key :: tx
            ++ [Event.ret Fn.read_sram_and_generate_key] ∧
        ∀ e, e ∈ tx → ∃ data size timeout status,
          e = Event.HAL_UART_Transmit data size timeout status := by
  refine ⟨_, read_sram_and_generate_key_eq env w, rfl, rfl, rfl, ?_, _, report_eq env w, ?_⟩
  · rw [report_eq]
    simp
  · exact sends_are_transmissions env w.puf_data 16 0 _

/-- C10 as stated fails: the text produced by the format for index 0 and byte
0 has 13 characters, not 11. -/
theorem C10_counterexample : ¬ ((format_record 0 0).length = 11) := by
  decide

/-- C10, amended: every access made by `read_sram_and_generate_key` is in
bounds.  The read `puf_data[i]` is defined exactly for `i` below 16 and the
reporter never makes an undefined access.  For every such `i` and every byte
value the text produced by the format `PUF[%02d]: %02X` with carriage return
and line feed is exactly 13 characters with no `NUL` among them, so with its
terminator it occupies the first 14 bytes of the 64-byte buffer, the rest of
the buffer is untouched, and the length computed by `strlen` is 13. -/
theorem C10_accesses_in_bounds (env : Env) (w : World) (stack : Fin 64 → Char) :
    (∃ w1, read_sram_and_generate_key env w = Res.ret () w1) ∧
    (∀ i : Nat, (∃ v, read_puf_data i w = Res.ret v w) ↔ i < 16) ∧
    (∀ (i : Fin 16) (v : Fin 256),
      (format_record (i.val : Int) v.val).length = 13 ∧
      NUL ∉ format_record (i.val : Int) v.val ∧
      ∃ buffer, sprintf (List.ofFn stack) (format_record (i.val : Int) v.val) = some buffer ∧
        buffer.length = 64 ∧
        buffer.take 13 = format_record (i.val : Int) v.val ∧
        buffer[13]? = some NUL ∧
        buffer.drop 14 = (List.ofFn stack).drop 14 ∧
        strlen buffer = some 13) := by
  refine ⟨⟨_, read_sram_and_generate_key_eq env w⟩, ?_, ?_⟩
  · intro i
    constructor
    · rintro ⟨v, hv⟩
      by_contra hi
      simp [read_puf_data, hi] at hv
    · intro hi
      exact ⟨w.puf_data ⟨i, hi⟩, by simp [read_puf_data, hi]⟩
  · intro i v
    have hlen := format_record_length i v
    have hnul := format_record_no_NUL i v
    refine ⟨hlen, hnul,
      format_record (i.val : Int) v.val ++ NUL :: (List.ofFn stack).drop 14, ?_, ?_, ?_, ?_, ?_, ?_⟩
    · simp only [sprintf, hlen, List.length_ofFn]
      rfl
    · rw [List.length_append, hlen, List.length_cons, List.length_drop, List.length_ofFn]
    · rw [← hlen, List.take_left']
      rfl
    · rw [List.getElem?_append_right (by rw [hlen]), hlen]
      rfl
    · rw [List.drop_append_eq_append_drop, hlen, List.drop_eq_nil_of_le (by rw [hlen]; omega)]
      rfl
    · rw [strlen_append _ _ hnul, hlen]

end SramPuf
